import Mathlib

/-!
Verification of the PMS-CYNERZA inventory/booking core.

Shallow embedding of the Python services in `app/services/inventory_service.py`,
`app/services/booking_service.py`, `app/services/multi_room_booking_service.py`
and the booking router.  Dates are modelled as natural numbers (day indices),
monetary amounts and room counts as integers (Python ints / exact Decimals),
and the database as a record of finite maps.  Each mutating service runs inside
a transaction scope: an exception makes the scope roll back, so the committed
state after a failed call is the state before the call (`runTxn`).
-/

namespace PMS

/-- Booking status: the model stores `CONFIRMED` / `CANCELLED` strings. -/
inductive BookingStatus where
  | confirmed
  | cancelled
deriving DecidableEq

/-- One inventory row: `available_rooms` and `price` columns of the
`Inventory` model (key columns `room_type_id`, `date` live in the map key). -/
structure InventoryRec where
  available_rooms : Int
  price : Int
deriving DecidableEq

/-- `RoomType` model: `total_rooms` and `base_price` (identity lives in the map key). -/
structure RoomType where
  total_rooms : Int
  base_price : Int
deriving DecidableEq

/-- `Customer` model fields mutated by `get_or_create_customer`
(email is the map key, id is stored beside the record). -/
structure Customer where
  name : String
  phone : Option String
  address : Option String
  id_proof_type : Option String
  id_proof_number : Option String
deriving DecidableEq

/-- Customer payload of a booking request. -/
structure CustomerInfo where
  name : String
  email : String
  phone : Option String
  address : Option String
  id_proof_type : Option String
  id_proof_number : Option String
deriving DecidableEq

/-- `Booking` model fields used by the services. -/
structure Booking where
  customer_id : Nat
  room_type_id : Nat
  check_in : Nat
  check_out : Nat
  num_rooms : Int
  total_amount : Int
  amount_paid : Int
  status : BookingStatus
  notes : Option String
deriving DecidableEq

/-- `BookingItem` model: child row of a multi-room booking. -/
structure BItem where
  booking_id : Nat
  room_type_id : Nat
  quantity : Int
  price_per_night : Int
deriving DecidableEq

/-- `BookingCreate` request schema for the single-room booking service. -/
structure BookingCreate where
  room_type_id : Nat
  check_in : Nat
  check_out : Nat
  num_rooms : Int
  amount_paid : Int
  notes : Option String
  customer : CustomerInfo
deriving DecidableEq

/-- The typed PMS error set (`app/core/exceptions.py`).  Payloads keep the
data the Python exceptions carry in attributes / message interpolations. -/
inductive PMSError where
  | invalidDateRange
  | roomTypeNotFound (room_type_id : Nat)
  | inventoryNotFound (missing : List Nat)
  | inventoryUnavailable (date : Option Nat) (available : Int) (requested : Int)
  | bookingNotFound (booking_id : Nat)
  | bookingAlreadyCancelled (booking_id : Nat)
  | bookingNotModifiable (booking_id : Nat)
  | inventoryRestoreError
deriving DecidableEq

/-- Everything a service call can raise: a typed PMS exception or a plain
Python `ValueError`. -/
inductive Err where
  | pms (e : PMSError)
  | valueError (msg : String)
deriving DecidableEq

instance {α β : Type} [DecidableEq α] [DecidableEq β] : DecidableEq (Except α β)
  | .ok a, .ok b =>
    if h : a = b then .isTrue (h ▸ rfl) else .isFalse fun c => h (Except.ok.inj c)
  | .ok _, .error _ => .isFalse fun c => Except.noConfusion c
  | .error _, .ok _ => .isFalse fun c => Except.noConfusion c
  | .error e, .error f =>
    if h : e = f then .isTrue (h ▸ rfl) else .isFalse fun c => h (Except.error.inj c)

/-- Modelled from the spec: `app/utils/date_utils.get_date_list` is not among
the provided source files; the spec's DateRangeEnumerator contract says it
produces the ordered sequence of calendar dates from the inclusive start to
the exclusive end. -/
def get_date_list (s e : Nat) : List Nat :=
  (List.range (e - s)).map (s + ·)

/-- The database state shared by all services. -/
@[ext] structure DB where
  inventory : Nat → Nat → Option InventoryRec
  roomTypes : Nat → Option RoomType
  bookings : Nat → Option Booking
  bookingItems : List BItem
  customers : String → Option (Nat × Customer)
  nextBookingId : Nat
  nextCustomerId : Nat

/-- Write one inventory row. -/
def DB.updateInventory (db : DB) (rt d : Nat) (rec : InventoryRec) : DB :=
  { db with inventory := fun rt' d' =>
      if rt' = rt ∧ d' = d then some rec else db.inventory rt' d' }

/-- Write one booking row. -/
def DB.updateBooking (db : DB) (bid : Nat) (b : Booking) : DB :=
  { db with bookings := fun i => if i = bid then some b else db.bookings i }

@[simp] theorem DB.updateInventory_inventory (db : DB) (rt d : Nat) (rec : InventoryRec)
    (rt' d' : Nat) :
    (db.updateInventory rt d rec).inventory rt' d' =
      if rt' = rt ∧ d' = d then some rec else db.inventory rt' d' := rfl

@[simp] theorem DB.updateInventory_roomTypes (db : DB) (rt d : Nat) (rec : InventoryRec) :
    (db.updateInventory rt d rec).roomTypes = db.roomTypes := rfl

@[simp] theorem DB.updateInventory_bookings (db : DB) (rt d : Nat) (rec : InventoryRec) :
    (db.updateInventory rt d rec).bookings = db.bookings := rfl

/-- `check_availability` (inventory_service.py): read-only availability check.
Returns `(is_available, min_available, total_price)`; takes `today` as the
clock input the Python code reads via `date.today()`. -/
def check_availability (db : DB) (today rt s e : Nat) (num : Int) :
    Except Err (Bool × Int × Int) :=
  if e ≤ s then .error (.pms .invalidDateRange)
  else if s < today then .error (.pms .invalidDateRange)
  else
    let required := get_date_list s e
    let missing := required.filter (fun d => (db.inventory rt d).isNone)
    if missing.isEmpty then
      let recs := required.filterMap (fun d => db.inventory rt d)
      match (recs.map (·.available_rooms)).min? with
      | none => .error (.valueError "min() arg is an empty sequence")
      | some m => .ok (decide (num ≤ m), m, (recs.map (·.price)).sum * num)
    else
      .error (.pms (.inventoryNotFound missing))

/-- The per-date loop of `reserve_inventory`: lock the row, check it exists,
re-check availability, deduct, accumulate price. -/
def reserveLoop (rt : Nat) (num : Int) : List Nat → DB → Int → Except Err (DB × Int)
  | [], db, acc => .ok (db, acc)
  | d :: rest, db, acc =>
    match db.inventory rt d with
    | none => .error (.pms (.inventoryNotFound [d]))
    | some inv =>
      if inv.available_rooms < num then
        .error (.pms (.inventoryUnavailable (some d) inv.available_rooms num))
      else
        reserveLoop rt num rest
          (db.updateInventory rt d { inv with available_rooms := inv.available_rooms - num })
          (acc + inv.price * num)

/-- `reserve_inventory` (inventory_service.py): deduct `num` rooms for every
date in `[s, e)`, in ascending date order, returning the accumulated price. -/
def reserve_inventory (db : DB) (rt s e : Nat) (num : Int) : Except Err (DB × Int) :=
  reserveLoop rt num (get_date_list s e) db 0

/-- The per-date loop of `restore_inventory`: a missing row is silently
skipped (`if inventory:`), an existing row is credited. -/
def restoreLoop (rt : Nat) (num : Int) : List Nat → DB → DB
  | [], db => db
  | d :: rest, db =>
    match db.inventory rt d with
    | none => restoreLoop rt num rest db
    | some inv =>
      restoreLoop rt num rest
        (db.updateInventory rt d { inv with available_rooms := inv.available_rooms + num })

/-- `restore_inventory` (inventory_service.py): credit `num` rooms back for
every date in `[s, e)` that has an inventory row; it never raises. -/
def restore_inventory (db : DB) (rt s e : Nat) (num : Int) : DB :=
  restoreLoop rt num (get_date_list s e) db

/-- `get_or_create_customer` (booking_service.py): upsert by email; the name
is always overwritten, optional fields only when provided. -/
def get_or_create_customer (db : DB) (ci : CustomerInfo) : DB × Nat :=
  match db.customers ci.email with
  | some (cid, c) =>
    let c' : Customer :=
      { name := ci.name
        phone := match ci.phone with | some p => some p | none => c.phone
        address := match ci.address with | some a => some a | none => c.address
        id_proof_type := match ci.id_proof_type with | some t => some t | none => c.id_proof_type
        id_proof_number := match ci.id_proof_number with | some n => some n | none => c.id_proof_number }
    ({ db with customers := fun em => if em = ci.email then some (cid, c') else db.customers em },
      cid)
  | none =>
    let cid := db.nextCustomerId
    let c : Customer :=
      { name := ci.name, phone := ci.phone, address := ci.address
        id_proof_type := ci.id_proof_type, id_proof_number := ci.id_proof_number }
    let cmap := fun em => if em = ci.email then some (cid, c) else db.customers em
    ({ db with customers := cmap, nextCustomerId := cid + 1 }, cid)

/-- Transaction-scope semantics: a raised error rolls the whole scope back,
so the committed state is the pre-call state; success commits the new state. -/
def runTxn {α : Type} (db : DB) (r : Except Err (DB × α)) : DB × Except Err α :=
  match r with
  | .ok (db', a) => (db', .ok a)
  | .error e => (db, .error e)

/-- Body of `create_booking` (booking_service.py): validations, room-type
lookup, advisory availability pre-check, then reserve + upsert customer +
insert the CONFIRMED booking, all in one scope. -/
def create_booking_body (today : Nat) (db : DB) (bd : BookingCreate) :
    Except Err (DB × Nat) :=
  if bd.check_out ≤ bd.check_in then .error (.pms .invalidDateRange)
  else if bd.check_in < today then .error (.pms .invalidDateRange)
  else
    match db.roomTypes bd.room_type_id with
    | none => .error (.pms (.roomTypeNotFound bd.room_type_id))
    | some _ =>
      match check_availability db today bd.room_type_id bd.check_in bd.check_out bd.num_rooms with
      | .error e => .error e
      | .ok (is_available, min_rooms, _) =>
        if is_available then
          match reserve_inventory db bd.room_type_id bd.check_in bd.check_out bd.num_rooms with
          | .error e => .error e
          | .ok (db1, total) =>
            let db2 := (get_or_create_customer db1 bd.customer).1
            let cid := (get_or_create_customer db1 bd.customer).2
            let bid := db2.nextBookingId
            let b : Booking :=
              { customer_id := cid, room_type_id := bd.room_type_id
                check_in := bd.check_in, check_out := bd.check_out
                num_rooms := bd.num_rooms, total_amount := total
                amount_paid := bd.amount_paid, status := .confirmed, notes := bd.notes }
            .ok ({ (db2.updateBooking bid b) with nextBookingId := bid + 1 }, bid)
        else
          .error (.pms (.inventoryUnavailable none min_rooms bd.num_rooms))

/-- Committed `create_booking`. -/
def create_booking (today : Nat) (db : DB) (bd : BookingCreate) : DB × Except Err Nat :=
  runTxn db (create_booking_body today db bd)

/-- Append the cancellation reason to the notes the way the Python code does
(`f-string` plus `strip()`). -/
def cancelNotes (notes : Option String) : Option String → Option String
  | none => notes
  | some r => some (((notes.getD "") ++ "\nCancellation reason: " ++ r).trim)

/-- Body of `cancel_booking` (booking_service.py): load, reject absent or
already-cancelled bookings, then restore inventory and flip the status. -/
def cancel_booking_body (db : DB) (bid : Nat) (reason : Option String) :
    Except Err (DB × Nat) :=
  match db.bookings bid with
  | none => .error (.pms (.bookingNotFound bid))
  | some b =>
    if b.status = .cancelled then .error (.pms (.bookingAlreadyCancelled bid))
    else
      let db1 := restore_inventory db b.room_type_id b.check_in b.check_out b.num_rooms
      let b' : Booking := { b with status := .cancelled, notes := cancelNotes b.notes reason }
      .ok (db1.updateBooking bid b', bid)

/-- Committed `cancel_booking`. -/
def cancel_booking (db : DB) (bid : Nat) (reason : Option String) : DB × Except Err Nat :=
  runTxn db (cancel_booking_body db bid reason)

/-- Modelled from the spec: `modify_booking` is imported by
`app/routers/booking.py` from `app.services.booking_service` but its body is
not among the provided source files.  Spec section 4.4: load the booking;
fail with BookingNotFound if absent, BookingNotModifiable if already
cancelled or check-in already in the past; then in a single scope
(a) restore the old reservation footprint, (b) re-check and reserve the new
footprint (each parameter defaulting to the existing value when not
supplied, RoomTypeNotFound if the new room type is absent), (c) update the
booking's fields and recomputed total_amount, (d) append a modification
note.  Any failure rolls the whole scope back. -/
def modify_booking_body (today : Nat) (db : DB) (bid : Nat)
    (nci nco : Option Nat) (nrt : Option Nat) (nnum : Option Int) :
    Except Err (DB × Nat) :=
  match db.bookings bid with
  | none => .error (.pms (.bookingNotFound bid))
  | some b =>
    if b.status = .cancelled then .error (.pms (.bookingNotModifiable bid))
    else if b.check_in < today then .error (.pms (.bookingNotModifiable bid))
    else
      let ci := nci.getD b.check_in
      let co := nco.getD b.check_out
      let rt := nrt.getD b.room_type_id
      let num := nnum.getD b.num_rooms
      let db1 := restore_inventory db b.room_type_id b.check_in b.check_out b.num_rooms
      match db1.roomTypes rt with
      | none => .error (.pms (.roomTypeNotFound rt))
      | some _ =>
        match reserve_inventory db1 rt ci co num with
        | .error e => .error e
        | .ok (db2, total) =>
          let b' : Booking :=
            { b with
              check_in := ci
              check_out := co
              room_type_id := rt
              num_rooms := num
              total_amount := total
              notes := some ((b.notes.getD "") ++ "\nModified") }
          .ok (db2.updateBooking bid b', bid)

/-- Committed `modify_booking`. -/
def modify_booking (today : Nat) (db : DB) (bid : Nat)
    (nci nco : Option Nat) (nrt : Option Nat) (nnum : Option Int) : DB × Except Err Nat :=
  runTxn db (modify_booking_body today db bid nci nco nrt nnum)

/-- STEP 2 of `create_multi_room_booking`: per room type, verify existence
and run the advisory availability check, accumulating the total price and the
per-room-type base-price snapshots. -/
def multiPrecheck (today : Nat) (db : DB) (ci co : Nat) :
    List (Nat × Int) → Int → List (Nat × Int) → Except Err (Int × List (Nat × Int))
  | [], total, prices => .ok (total, prices)
  | (rt, q) :: rest, total, prices =>
    match db.roomTypes rt with
    | none => .error (.pms (.roomTypeNotFound rt))
    | some rtRec =>
      match check_availability db today rt ci co q with
      | .error e => .error e
      | .ok (is_available, min_available, price) =>
        if is_available then
          multiPrecheck today db ci co rest (total + price) (prices ++ [(rt, rtRec.base_price)])
        else
          .error (.pms (.inventoryUnavailable none min_available q))

/-- STEP 3a of `create_multi_room_booking`: reserve every requested room type
in request order inside the open scope. -/
def multiReserve (ci co : Nat) : List (Nat × Int) → DB → Except Err DB
  | [], db => .ok db
  | (rt, q) :: rest, db =>
    match reserve_inventory db rt ci co q with
    | .error e => .error e
    | .ok (db1, _) => multiReserve ci co rest db1

/-- Body of `create_multi_room_booking` (multi_room_booking_service.py). -/
def create_multi_room_booking_body (today : Nat) (db : DB) (ci co : Nat)
    (reqs : List (Nat × Int)) (cust : CustomerInfo) (paid : Int) (notes : Option String) :
    Except Err (DB × Nat) :=
  if co ≤ ci then .error (.pms .invalidDateRange)
  else if ci < today then .error (.pms .invalidDateRange)
  else if reqs.isEmpty then .error (.valueError "At least one room type must be requested")
  else
    match multiPrecheck today db ci co reqs 0 [] with
    | .error e => .error e
    | .ok (total, prices) =>
      match multiReserve ci co reqs db with
      | .error e => .error e
      | .ok db1 =>
        let db2 := (get_or_create_customer db1 cust).1
        let cid := (get_or_create_customer db1 cust).2
        let bid := db2.nextBookingId
        let b : Booking :=
          { customer_id := cid, room_type_id := (reqs.headD (0, 0)).1
            check_in := ci, check_out := co
            num_rooms := (reqs.map (·.2)).sum, total_amount := total
            amount_paid := paid, status := .confirmed, notes := notes }
        let items := reqs.map fun p =>
          { booking_id := bid, room_type_id := p.1, quantity := p.2
            price_per_night := (prices.lookup p.1).getD 0 : BItem }
        .ok ({ (db2.updateBooking bid b) with
                bookingItems := db2.bookingItems ++ items
                nextBookingId := bid + 1 }, bid)

/-- Committed `create_multi_room_booking`. -/
def create_multi_room_booking (today : Nat) (db : DB) (ci co : Nat)
    (reqs : List (Nat × Int)) (cust : CustomerInfo) (paid : Int) (notes : Option String) :
    DB × Except Err Nat :=
  runTxn db (create_multi_room_booking_body today db ci co reqs cust paid notes)

/-- Does an inventory row exist for this room type and date? -/
def dateHasRecord (db : DB) (rt d : Nat) : Bool :=
  (db.inventory rt d).isSome

/-- Does the row exist and hold at least `num` rooms? -/
def dateSufficient (db : DB) (rt : Nat) (num : Int) (d : Nat) : Bool :=
  match db.inventory rt d with
  | none => false
  | some r => decide (num ≤ r.available_rooms)

/-- The `available_rooms` column of a row, when the row exists. -/
def availAt (db : DB) (rt d : Nat) : Option Int :=
  (db.inventory rt d).map (·.available_rooms)

/-- Adjust the rows of room type `rt` on the given dates by `delta` rooms;
rows of other keys, and missing rows, are untouched.  Spec-side description
of the effect of the reserve/restore loops on the store. -/
def adjustAll (db : DB) (rt : Nat) (dates : List Nat) (delta : Int) : DB :=
  { db with inventory := fun rt' d' =>
      if rt' = rt ∧ d' ∈ dates then
        (db.inventory rt' d').map (fun r => { r with available_rooms := r.available_rooms + delta })
      else db.inventory rt' d' }

/-- Spec-side formula: sum over the dates of that date's price times the
number of rooms. -/
def priceSum (db : DB) (rt : Nat) (dates : List Nat) (num : Int) : Int :=
  (dates.map (fun d => ((db.inventory rt d).elim 0 (·.price)) * num)).sum

/-- Spec-side formula: minimum `available_rooms` across the span (the default
for a missing row is irrelevant: the formula is used only when every date has
a row). -/
def minAvailSpec (db : DB) (rt : Nat) (dates : List Nat) : Option Int :=
  (dates.map (fun d => ((db.inventory rt d).elim 0 (·.available_rooms)))).min?

/-- The five core operations named by the reachability claim. -/
inductive Op where
  | reserve (rt s e : Nat) (num : Int)
  | restore (rt s e : Nat) (num : Int)
  | create (bd : BookingCreate)
  | cancel (bid : Nat) (reason : Option String)
  | multi (ci co : Nat) (reqs : List (Nat × Int)) (cust : CustomerInfo) (paid : Int)
      (notes : Option String)

/-- Schema validation of the operation arguments: every requested quantity is
positive (`num_rooms` / `quantity` are declared `gt=0` in the request schemas). -/
def OpValid : Op → Prop
  | .reserve _ _ _ n => 1 ≤ n
  | .restore _ _ _ n => 1 ≤ n
  | .create bd => 1 ≤ bd.num_rooms
  | .cancel _ _ => True
  | .multi _ _ reqs _ _ _ => ∀ p ∈ reqs, 1 ≤ p.2

/-- Committed effect of one operation on the store. -/
def applyOp (today : Nat) (db : DB) : Op → DB
  | .reserve rt s e n => (runTxn db (reserve_inventory db rt s e n)).1
  | .restore rt s e n => restore_inventory db rt s e n
  | .create bd => (create_booking today db bd).1
  | .cancel bid r => (cancel_booking db bid r).1
  | .multi ci co reqs cust paid notes =>
      (create_multi_room_booking today db ci co reqs cust paid notes).1

/-- Is the operation a bare reservation attempt? -/
def Op.isReserve : Op → Prop
  | .reserve _ _ _ _ => True
  | _ => False

/-- States reachable from `init` by operations allowed by `P`, with
schema-valid arguments. -/
inductive ReachableVia (P : Op → Prop) (today : Nat) (init : DB) : DB → Prop
  | refl : ReachableVia P today init init
  | step {db : DB} (op : Op) : ReachableVia P today init db → P op → OpValid op →
      ReachableVia P today init (applyOp today db op)

/-- Lower half of the inventory invariant: no row ever goes negative. -/
def InvLower (db : DB) : Prop :=
  ∀ rt d rec, db.inventory rt d = some rec → 0 ≤ rec.available_rooms

/-- Every stored booking holds at least one room. -/
def BookingsPos (db : DB) : Prop :=
  ∀ bid b, db.bookings bid = some b → 1 ≤ b.num_rooms

/-- The inductive state invariant used for the reachability proof. -/
def StateInv (db : DB) : Prop :=
  InvLower db ∧ BookingsPos db

/-- The claimed invariant: `0 ≤ available_rooms ≤ total_rooms` of the row's
room type. -/
def InvFull (db : DB) : Prop :=
  ∀ rt d rec rtRec, db.inventory rt d = some rec → db.roomTypes rt = some rtRec →
    0 ≤ rec.available_rooms ∧ rec.available_rooms ≤ rtRec.total_rooms

/-- Build a store with no customers and no booking items. -/
def mkDB (inv : Nat → Nat → Option InventoryRec) (rts : Nat → Option RoomType)
    (bks : Nat → Option Booking) : DB :=
  { inventory := inv, roomTypes := rts, bookings := bks, bookingItems := []
    customers := fun _ => none, nextBookingId := 1, nextCustomerId := 1 }

/-- Concrete store for the invariant claim: room type 1 with a single fully
available room on date 0. -/
def dbA : DB :=
  mkDB (fun rt d => if rt = 1 ∧ d = 0 then some ⟨1, 10⟩ else none)
    (fun rt => if rt = 1 then some ⟨1, 10⟩ else none)
    (fun _ => none)

/-- Concrete store for the reservation claims: room type 1 with rows on
dates 0, 1 and 3 (date 2 missing). -/
def dbB : DB :=
  mkDB
    (fun rt d =>
      if rt = 1 ∧ d = 0 then some ⟨3, 10⟩
      else if rt = 1 ∧ d = 1 then some ⟨2, 20⟩
      else if rt = 1 ∧ d = 3 then some ⟨4, 30⟩
      else none)
    (fun rt => if rt = 1 then some ⟨5, 10⟩ else none)
    (fun _ => none)

/-- Concrete store for the multi-room claims: room A (= 1) has 2 rooms free
on date 0, room B (= 2) has none. -/
def dbM : DB :=
  mkDB
    (fun rt d =>
      if rt = 1 ∧ d = 0 then some ⟨2, 10⟩
      else if rt = 2 ∧ d = 0 then some ⟨0, 20⟩
      else none)
    (fun rt => if rt = 1 then some ⟨5, 10⟩ else if rt = 2 then some ⟨2, 20⟩ else none)
    (fun _ => none)

/-- A CONFIRMED booking used by the cancellation and modification claims:
room type 1, dates `[1, 3)`, two rooms. -/
def bookingB : Booking :=
  { customer_id := 1, room_type_id := 1, check_in := 1, check_out := 3, num_rooms := 2
    total_amount := 40, amount_paid := 0, status := .confirmed, notes := none }

/-- Concrete store for the cancellation claim: booking 2 exists but is
already CANCELLED; booking 1 does not exist. -/
def dbK : DB :=
  mkDB (fun rt d => if rt = 1 ∧ (d = 1 ∨ d = 2) then some ⟨3, 10⟩ else none)
    (fun rt => if rt = 1 then some ⟨5, 10⟩ else none)
    (fun bid => if bid = 2 then some { bookingB with status := .cancelled } else none)

/-- Concrete store for the modification claim: booking 10 holds room type 1
for `[1, 3)` (2 rooms already deducted); room type 2 has only 2 rooms free on
date 3. -/
def dbMod : DB :=
  mkDB
    (fun rt d =>
      if rt = 1 ∧ (d = 1 ∨ d = 2) then some ⟨3, 10⟩
      else if rt = 2 ∧ d = 2 then some ⟨3, 20⟩
      else if rt = 2 ∧ d = 3 then some ⟨2, 20⟩
      else none)
    (fun rt => if rt = 1 then some ⟨5, 10⟩ else if rt = 2 then some ⟨4, 20⟩ else none)
    (fun bid => if bid = 10 then some bookingB else none)

/-- Concrete store for the restore claim: room type 1 has no row on date 0
but a row on date 1. -/
def dbR : DB :=
  mkDB (fun rt d => if rt = 1 ∧ d = 1 then some ⟨2, 10⟩ else none)
    (fun rt => if rt = 1 then some ⟨5, 10⟩ else none)
    (fun _ => none)

/-- A concrete customer payload for the witnesses. -/
def custX : CustomerInfo :=
  { name := "Jo", email := "jo@example.com", phone := none, address := none
    id_proof_type := none, id_proof_number := none }

/-! ### Helper lemmas -/

theorem pairwise_get_date_list (s e : Nat) : (get_date_list s e).Pairwise (· < ·) := by
  unfold get_date_list
  exact (List.pairwise_map).mpr ((List.pairwise_lt_range _).imp (by omega))

theorem nodup_get_date_list (s e : Nat) : (get_date_list s e).Nodup :=
  (pairwise_get_date_list s e).imp Nat.ne_of_lt

@[simp] theorem adjustAll_inventory (db : DB) (rt : Nat) (dates : List Nat) (delta : Int)
    (rt' d' : Nat) :
    (adjustAll db rt dates delta).inventory rt' d' =
      if rt' = rt ∧ d' ∈ dates then
        (db.inventory rt' d').map
          (fun r => { r with available_rooms := r.available_rooms + delta })
      else db.inventory rt' d' := rfl

@[simp] theorem adjustAll_roomTypes (db : DB) (rt : Nat) (dates : List Nat) (delta : Int) :
    (adjustAll db rt dates delta).roomTypes = db.roomTypes := rfl

@[simp] theorem adjustAll_bookings (db : DB) (rt : Nat) (dates : List Nat) (delta : Int) :
    (adjustAll db rt dates delta).bookings = db.bookings := rfl

theorem adjustAll_nil (db : DB) (rt : Nat) (delta : Int) : adjustAll db rt [] delta = db := by
  refine DB.ext ?_ rfl rfl rfl rfl rfl rfl
  funext rt' d'
  simp [adjustAll]

theorem adjustAll_skip (db : DB) (rt d : Nat) (l : List Nat) (delta : Int)
    (h : db.inventory rt d = none) :
    adjustAll db rt (d :: l) delta = adjustAll db rt l delta := by
  refine DB.ext ?_ rfl rfl rfl rfl rfl rfl
  funext rt' d'
  by_cases hrt : rt' = rt
  · subst hrt
    by_cases hd : d' = d
    · subst hd
      by_cases hl : d' ∈ l <;> simp [adjustAll, hl, h]
    · simp [adjustAll, hd]
  · simp [adjustAll, hrt]

theorem adjustAll_cons (db : DB) (rt d : Nat) (l : List Nat) (delta : Int) (r : InventoryRec)
    (h : db.inventory rt d = some r) (hd : d ∉ l) :
    adjustAll (db.updateInventory rt d { r with available_rooms := r.available_rooms + delta })
        rt l delta =
      adjustAll db rt (d :: l) delta := by
  refine DB.ext ?_ rfl rfl rfl rfl rfl rfl
  funext rt' d'
  by_cases hrt : rt' = rt
  · subst hrt
    by_cases hdd : d' = d
    · subst hdd
      have hnl : d' ∉ l := hd
      simp [adjustAll, hnl, h]
    · by_cases hl : d' ∈ l <;> simp [adjustAll, hl, hdd]
  · simp [adjustAll, hrt]

theorem adjustAll_adjustAll (db : DB) (rt : Nat) (l : List Nat) (d1 d2 : Int) :
    adjustAll (adjustAll db rt l d1) rt l d2 = adjustAll db rt l (d1 + d2) := by
  refine DB.ext ?_ rfl rfl rfl rfl rfl rfl
  funext rt' d'
  by_cases hm : rt' = rt ∧ d' ∈ l
  · simp only [adjustAll_inventory, if_pos hm]
    cases db.inventory rt' d' with
    | none => rfl
    | some r => simp [add_assoc]
  · simp [adjustAll, hm]

theorem adjustAll_zero (db : DB) (rt : Nat) (l : List Nat) : adjustAll db rt l 0 = db := by
  refine DB.ext ?_ rfl rfl rfl rfl rfl rfl
  funext rt' d'
  by_cases hm : rt' = rt ∧ d' ∈ l
  · simp only [adjustAll_inventory, if_pos hm]
    cases db.inventory rt' d' with
    | none => rfl
    | some r => simp
  · simp [adjustAll, hm]

@[simp] theorem priceSum_nil (db : DB) (rt : Nat) (num : Int) : priceSum db rt [] num = 0 := rfl

theorem priceSum_cons (db : DB) (rt d : Nat) (l : List Nat) (num : Int) :
    priceSum db rt (d :: l) num =
      ((db.inventory rt d).elim 0 (·.price)) * num + priceSum db rt l num := by
  simp [priceSum]

theorem priceSum_update (db : DB) (rt d : Nat) (rec : InventoryRec) (l : List Nat) (num : Int)
    (hd : d ∉ l) :
    priceSum (db.updateInventory rt d rec) rt l num = priceSum db rt l num := by
  unfold priceSum
  congr 1
  apply List.map_congr_left
  intro x hx
  have : ¬(x = d) := fun h => hd (h ▸ hx)
  simp [this]

theorem dateSufficient_update (db : DB) (rt d d' : Nat) (rec : InventoryRec) (num : Int)
    (hdd : d' ≠ d) :
    dateSufficient (db.updateInventory rt d rec) rt num d' = dateSufficient db rt num d' := by
  unfold dateSufficient
  rw [DB.updateInventory_inventory]
  simp [hdd]

theorem reserveLoop_prefix (rt : Nat) (num : Int) (l1 l2 : List Nat) :
    ∀ (db : DB) (acc : Int), l1.Nodup →
      (∀ d ∈ l1, dateSufficient db rt num d = true) →
      reserveLoop rt num (l1 ++ l2) db acc =
        reserveLoop rt num l2 (adjustAll db rt l1 (-num)) (acc + priceSum db rt l1 num) := by
  induction l1 with
  | nil =>
    intro db acc _ _
    rw [List.nil_append, adjustAll_nil, priceSum_nil, add_zero]
  | cons d l1 ih =>
    intro db acc hnd hsuf
    have hd := hsuf d (List.mem_cons_self d l1)
    unfold dateSufficient at hd
    cases hinv : db.inventory rt d with
    | none => rw [hinv] at hd; cases hd
    | some r =>
      rw [hinv] at hd
      have hle : num ≤ r.available_rooms := of_decide_eq_true hd
      have hnlt : ¬(r.available_rooms < num) := not_lt.mpr hle
      obtain ⟨hdnl, hnd1⟩ := List.nodup_cons.mp hnd
      rw [List.cons_append]
      simp only [reserveLoop, hinv]
      rw [if_neg hnlt]
      have hsuf1 : ∀ d' ∈ l1,
          dateSufficient
            (db.updateInventory rt d { r with available_rooms := r.available_rooms - num })
            rt num d' = true := by
        intro d' hd'
        rw [dateSufficient_update db rt d d' _ num (fun h => hdnl (h ▸ hd'))]
        exact hsuf d' (List.mem_cons_of_mem d hd')
      rw [ih _ _ hnd1 hsuf1]
      have hrec : ({ r with available_rooms := r.available_rooms - num } : InventoryRec) =
          { r with available_rooms := r.available_rooms + (-num) } := by
        rw [sub_eq_add_neg]
      rw [hrec, adjustAll_cons db rt d l1 (-num) r hinv hdnl,
        priceSum_update db rt d _ l1 num hdnl, priceSum_cons, hinv, add_assoc]
      rfl

theorem reserveLoop_ok_sufficient (rt : Nat) (num : Int) (l : List Nat) :
    ∀ (db : DB) (acc : Int) (db' : DB) (t : Int),
      reserveLoop rt num l db acc = .ok (db', t) →
      ∀ d ∈ l, dateSufficient db rt num d = true := by
  induction l with
  | nil => intro db acc db' t _ d hd; cases hd
  | cons d0 l ih =>
    intro db acc db' t h d hd
    cases hinv : db.inventory rt d0 with
    | none => simp only [reserveLoop, hinv] at h; cases h
    | some r =>
      simp only [reserveLoop, hinv] at h
      by_cases hlt : r.available_rooms < num
      · rw [if_pos hlt] at h; cases h
      · rw [if_neg hlt] at h
        by_cases hdd : d = d0
        · subst hdd
          unfold dateSufficient
          rw [hinv]
          exact decide_eq_true (not_lt.mp hlt)
        · rcases List.mem_cons.mp hd with heq | hmem
          · exact absurd heq hdd
          · have := ih _ _ _ _ h d hmem
            rwa [dateSufficient_update db rt d0 d _ num hdd] at this

theorem reserve_ok_eq (db : DB) (rt s e : Nat) (num : Int)
    (h : ∀ d ∈ get_date_list s e, dateSufficient db rt num d = true) :
    reserve_inventory db rt s e num =
      .ok (adjustAll db rt (get_date_list s e) (-num),
        priceSum db rt (get_date_list s e) num) := by
  unfold reserve_inventory
  have hp := reserveLoop_prefix rt num (get_date_list s e) [] db 0 (nodup_get_date_list s e) h
  rw [List.append_nil] at hp
  rw [hp, reserveLoop, zero_add]

theorem reserve_suffix_eq (db : DB) (rt s e : Nat) (num : Int) (l1 l2 : List Nat) (dm : Nat)
    (hsplit : get_date_list s e = l1 ++ dm :: l2)
    (hsuf : ∀ d ∈ l1, dateSufficient db rt num d = true) :
    reserve_inventory db rt s e num =
      reserveLoop rt num (dm :: l2) (adjustAll db rt l1 (-num)) (priceSum db rt l1 num) ∧
      (adjustAll db rt l1 (-num)).inventory rt dm = db.inventory rt dm := by
  have hnd : (l1 ++ dm :: l2).Nodup := hsplit ▸ nodup_get_date_list s e
  obtain ⟨hnd1, _, hdisj⟩ := List.nodup_append.mp hnd
  have hdm : dm ∉ l1 := fun hmem => hdisj hmem (List.mem_cons_self dm l2)
  constructor
  · unfold reserve_inventory
    rw [hsplit, reserveLoop_prefix rt num l1 (dm :: l2) db 0 hnd1 hsuf, zero_add]
  · rw [adjustAll_inventory]
    simp [hdm]

theorem reserve_missing_eq (db : DB) (rt s e : Nat) (num : Int) (l1 l2 : List Nat) (dm : Nat)
    (hsplit : get_date_list s e = l1 ++ dm :: l2)
    (hsuf : ∀ d ∈ l1, dateSufficient db rt num d = true)
    (hm : db.inventory rt dm = none) :
    reserve_inventory db rt s e num = .error (.pms (.inventoryNotFound [dm])) := by
  obtain ⟨heq, hread⟩ := reserve_suffix_eq db rt s e num l1 l2 dm hsplit hsuf
  rw [heq, reserveLoop, hread, hm]

theorem reserve_insufficient_eq (db : DB) (rt s e : Nat) (num : Int) (l1 l2 : List Nat)
    (dm : Nat) (r : InventoryRec)
    (hsplit : get_date_list s e = l1 ++ dm :: l2)
    (hsuf : ∀ d ∈ l1, dateSufficient db rt num d = true)
    (hm : db.inventory rt dm = some r) (hlt : r.available_rooms < num) :
    reserve_inventory db rt s e num =
      .error (.pms (.inventoryUnavailable (some dm) r.available_rooms num)) := by
  obtain ⟨heq, hread⟩ := reserve_suffix_eq db rt s e num l1 l2 dm hsplit hsuf
  rw [heq]
  simp only [reserveLoop, hread, hm]
  rw [if_pos hlt]

theorem restoreLoop_eq (rt : Nat) (num : Int) (l : List Nat) :
    ∀ db : DB, l.Nodup → restoreLoop rt num l db = adjustAll db rt l num := by
  induction l with
  | nil => intro db _; rw [restoreLoop, adjustAll_nil]
  | cons d l ih =>
    intro db hnd
    obtain ⟨hdnl, hnd1⟩ := List.nodup_cons.mp hnd
    cases hinv : db.inventory rt d with
    | none =>
      simp only [restoreLoop, hinv]
      rw [ih db hnd1, adjustAll_skip db rt d l num hinv]
    | some r =>
      simp only [restoreLoop, hinv]
      rw [ih _ hnd1, adjustAll_cons db rt d l num r hinv hdnl]

theorem restore_eq (db : DB) (rt s e : Nat) (num : Int) :
    restore_inventory db rt s e num = adjustAll db rt (get_date_list s e) num :=
  restoreLoop_eq rt num (get_date_list s e) db (nodup_get_date_list s e)

theorem filterMap_all_present {β : Type} (db : DB) (rt : Nat) (f : InventoryRec → β)
    (junk : β) (l : List Nat) (h : ∀ d ∈ l, (db.inventory rt d).isNone = false) :
    (l.filterMap (fun d => db.inventory rt d)).map f =
      l.map (fun d => (db.inventory rt d).elim junk f) := by
  induction l with
  | nil => rfl
  | cons d l ih =>
    have hd := h d (List.mem_cons_self d l)
    cases hinv : db.inventory rt d with
    | none => rw [hinv] at hd; cases hd
    | some r =>
      rw [List.filterMap_cons, hinv, List.map_cons, List.map_cons, hinv]
      rw [ih (fun d' hd' => h d' (List.mem_cons_of_mem d hd'))]
      rfl

theorem list_sum_mul_right (l : List Int) (b : Int) : l.sum * b = (l.map (· * b)).sum := by
  induction l with
  | nil => simp
  | cons a l ih => simp only [List.sum_cons, List.map_cons, add_mul, ih]

theorem runTxn_of_error {α : Type} (db : DB) (r : Except Err (DB × α)) (e : Err)
    (h : (runTxn db r).2 = .error e) : runTxn db r = (db, .error e) := by
  cases r with
  | ok p => simp [runTxn] at h
  | error e' =>
    simp only [runTxn] at h ⊢
    cases h
    rfl

theorem InvLower_of_bookings_irrelevant {db db' : DB} (h : db'.inventory = db.inventory)
    (hp : InvLower db) : InvLower db' := by
  intro rt d rec hr
  exact hp rt d rec (h ▸ hr)

theorem BookingsPos_of_eq {db db' : DB} (h : db'.bookings = db.bookings)
    (hp : BookingsPos db) : BookingsPos db' := by
  intro bid b hb
  exact hp bid b (h ▸ hb)

theorem adjustAll_lower (db : DB) (rt : Nat) (l : List Nat) (delta : Int)
    (hdelta : 0 ≤ delta) (h : InvLower db) : InvLower (adjustAll db rt l delta) := by
  intro rt' d' rec hr
  rw [adjustAll_inventory] at hr
  by_cases hm : rt' = rt ∧ d' ∈ l
  · rw [if_pos hm] at hr
    cases hinv : db.inventory rt' d' with
    | none => rw [hinv] at hr; cases hr
    | some r =>
      rw [hinv] at hr
      cases hr
      exact add_nonneg (h rt' d' r hinv) hdelta
  · rw [if_neg hm] at hr
    exact h rt' d' rec hr

theorem reserveLoop_ok_shape (rt : Nat) (num : Int) (l : List Nat) :
    ∀ (db : DB) (acc : Int) (db' : DB) (t : Int),
      reserveLoop rt num l db acc = .ok (db', t) →
      db'.roomTypes = db.roomTypes ∧ db'.bookings = db.bookings ∧
        db'.bookingItems = db.bookingItems ∧ db'.customers = db.customers ∧
        db'.nextBookingId = db.nextBookingId ∧ db'.nextCustomerId = db.nextCustomerId := by
  induction l with
  | nil =>
    intro db acc db' t h
    cases h
    exact ⟨rfl, rfl, rfl, rfl, rfl, rfl⟩
  | cons d l ih =>
    intro db acc db' t h
    cases hinv : db.inventory rt d with
    | none => simp only [reserveLoop, hinv] at h; cases h
    | some r =>
      simp only [reserveLoop, hinv] at h
      by_cases hlt : r.available_rooms < num
      · rw [if_pos hlt] at h; cases h
      · rw [if_neg hlt] at h
        exact ih (db.updateInventory rt d { r with available_rooms := r.available_rooms - num })
          (acc + r.price * num) db' t h

theorem reserveLoop_ok_lower (rt : Nat) (num : Int) (l : List Nat) :
    ∀ (db : DB) (acc : Int) (db' : DB) (t : Int),
      reserveLoop rt num l db acc = .ok (db', t) → InvLower db → InvLower db' := by
  induction l with
  | nil =>
    intro db acc db' t h hl
    cases h
    exact hl
  | cons d l ih =>
    intro db acc db' t h hl
    cases hinv : db.inventory rt d with
    | none => simp only [reserveLoop, hinv] at h; cases h
    | some r =>
      simp only [reserveLoop, hinv] at h
      by_cases hlt : r.available_rooms < num
      · rw [if_pos hlt] at h; cases h
      · rw [if_neg hlt] at h
        refine ih _ _ _ _ h ?_
        intro rt' d' rec hr
        rw [DB.updateInventory_inventory] at hr
        by_cases hm : rt' = rt ∧ d' = d
        · rw [if_pos hm] at hr
          cases hr
          exact sub_nonneg.mpr (not_lt.mp hlt)
        · rw [if_neg hm] at hr
          exact hl rt' d' rec hr

theorem reserveLoop_ok_full (rt : Nat) (num : Int) (hnum : 0 ≤ num) (l : List Nat) :
    ∀ (db : DB) (acc : Int) (db' : DB) (t : Int),
      reserveLoop rt num l db acc = .ok (db', t) → InvFull db → InvFull db' := by
  induction l with
  | nil =>
    intro db acc db' t h hf
    cases h
    exact hf
  | cons d l ih =>
    intro db acc db' t h hf
    cases hinv : db.inventory rt d with
    | none => simp only [reserveLoop, hinv] at h; cases h
    | some r =>
      simp only [reserveLoop, hinv] at h
      by_cases hlt : r.available_rooms < num
      · rw [if_pos hlt] at h; cases h
      · rw [if_neg hlt] at h
        refine ih _ _ _ _ h ?_
        intro rt' d' rec rtRec hr hrt
        rw [DB.updateInventory_inventory] at hr
        rw [DB.updateInventory_roomTypes] at hrt
        by_cases hm : rt' = rt ∧ d' = d
        · rw [if_pos hm] at hr
          cases hr
          obtain ⟨rfl, rfl⟩ := hm
          constructor
          · exact sub_nonneg.mpr (not_lt.mp hlt)
          · calc r.available_rooms - num ≤ r.available_rooms := sub_le_self _ hnum
              _ ≤ rtRec.total_rooms := (hf _ _ r rtRec hinv hrt).2
        · rw [if_neg hm] at hr
          exact hf rt' d' rec rtRec hr hrt

theorem reserve_ok_inv (db : DB) (rt s e : Nat) (num : Int) (db' : DB) (t : Int)
    (h : reserve_inventory db rt s e num = .ok (db', t)) :
    (InvLower db → InvLower db') ∧ db'.roomTypes = db.roomTypes ∧
      db'.bookings = db.bookings ∧ db'.bookingItems = db.bookingItems ∧
      db'.customers = db.customers ∧ db'.nextBookingId = db.nextBookingId ∧
      db'.nextCustomerId = db.nextCustomerId := by
  unfold reserve_inventory at h
  exact ⟨reserveLoop_ok_lower rt num _ _ _ _ _ h, reserveLoop_ok_shape rt num _ _ _ _ _ h⟩

theorem get_or_create_customer_shape (db : DB) (ci : CustomerInfo) :
    ((get_or_create_customer db ci).1).inventory = db.inventory ∧
      ((get_or_create_customer db ci).1).roomTypes = db.roomTypes ∧
      ((get_or_create_customer db ci).1).bookings = db.bookings ∧
      ((get_or_create_customer db ci).1).bookingItems = db.bookingItems ∧
      ((get_or_create_customer db ci).1).nextBookingId = db.nextBookingId := by
  unfold get_or_create_customer
  cases h : db.customers ci.email with
  | none => exact ⟨rfl, rfl, rfl, rfl, rfl⟩
  | some p => exact ⟨rfl, rfl, rfl, rfl, rfl⟩

theorem one_le_req_sum (reqs : List (Nat × Int)) (h : ∀ p ∈ reqs, 1 ≤ p.2)
    (hne : reqs ≠ []) : 1 ≤ (reqs.map (·.2)).sum := by
  cases reqs with
  | nil => cases hne rfl
  | cons p l =>
    have h0 : 0 ≤ (l.map (·.2)).sum := by
      apply List.sum_nonneg
      intro x hx
      obtain ⟨q, hq, rfl⟩ := List.mem_map.mp hx
      exact le_trans zero_le_one (h q (List.mem_cons_of_mem p hq))
    have h1 : 1 ≤ p.2 := h p (List.mem_cons_self p l)
    rw [List.map_cons, List.sum_cons]
    linarith

theorem create_body_inv (today : Nat) (db : DB) (bd : BookingCreate) (db' : DB) (bid : Nat)
    (h : create_booking_body today db bd = .ok (db', bid)) (hn : 1 ≤ bd.num_rooms)
    (hs : StateInv db) : StateInv db' := by
  simp only [create_booking_body] at h
  split at h
  · cases h
  split at h
  · cases h
  split at h
  · cases h
  split at h
  · cases h
  rename_i avail_triple
  split at h
  · split at h
    · cases h
    rename_i db1 total hres
    cases h
    obtain ⟨hlow1, hrtT1, hbk1, hbi1, hcu1, hnb1, hnc1⟩ :=
      reserve_ok_inv db bd.room_type_id bd.check_in bd.check_out bd.num_rooms db1 total hres
    obtain ⟨hci, hcr, hcb, hcbi, hcnb⟩ := get_or_create_customer_shape db1 bd.customer
    constructor
    · intro rt' d' rec hr
      have hr2 : ((get_or_create_customer db1 bd.customer).1).inventory rt' d' = some rec := hr
      rw [hci] at hr2
      exact hlow1 hs.1 rt' d' rec hr2
    · intro bid2 b2 hb2
      have hb2' : (if bid2 = (get_or_create_customer db1 bd.customer).1.nextBookingId then
          some { customer_id := (get_or_create_customer db1 bd.customer).2
                 room_type_id := bd.room_type_id
                 check_in := bd.check_in, check_out := bd.check_out
                 num_rooms := bd.num_rooms, total_amount := total
                 amount_paid := bd.amount_paid, status := .confirmed
                 notes := bd.notes : Booking }
          else ((get_or_create_customer db1 bd.customer).1).bookings bid2) = some b2 := hb2
      by_cases hb : bid2 = (get_or_create_customer db1 bd.customer).1.nextBookingId
      · rw [if_pos hb] at hb2'
        cases hb2'
        exact hn
      · rw [if_neg hb] at hb2'
        rw [hcb, hbk1] at hb2'
        exact hs.2 bid2 b2 hb2'
  · cases h

theorem cancel_body_inv (db : DB) (bid : Nat) (reason : Option String) (db' : DB) (bid2 : Nat)
    (h : cancel_booking_body db bid reason = .ok (db', bid2)) (hs : StateInv db) :
    StateInv db' := by
  simp only [cancel_booking_body] at h
  split at h
  · cases h
  rename_i b hb
  split at h
  · cases h
  cases h
  have h1 : 1 ≤ b.num_rooms := hs.2 bid b hb
  constructor
  · intro rt' d' rec hr
    have hr2 : (restore_inventory db b.room_type_id b.check_in b.check_out b.num_rooms).inventory
        rt' d' = some rec := hr
    rw [restore_eq] at hr2
    exact adjustAll_lower db _ _ _ (le_trans zero_le_one h1) hs.1 rt' d' rec hr2
  · intro bid3 b3 hb3
    have hb3' : (if bid3 = bid then
        some { b with status := .cancelled, notes := cancelNotes b.notes reason }
        else (restore_inventory db b.room_type_id b.check_in b.check_out b.num_rooms).bookings
          bid3) = some b3 := hb3
    by_cases hbb : bid3 = bid
    · rw [if_pos hbb] at hb3'
      cases hb3'
      exact h1
    · rw [if_neg hbb] at hb3'
      rw [restore_eq, adjustAll_bookings] at hb3'
      exact hs.2 bid3 b3 hb3'

theorem multiReserve_ok_inv (ci co : Nat) : ∀ (reqs : List (Nat × Int)) (db db' : DB),
    multiReserve ci co reqs db = .ok db' →
    (InvLower db → InvLower db') ∧ db'.roomTypes = db.roomTypes ∧
      db'.bookings = db.bookings ∧ db'.bookingItems = db.bookingItems ∧
      db'.customers = db.customers ∧ db'.nextBookingId = db.nextBookingId ∧
      db'.nextCustomerId = db.nextCustomerId := by
  intro reqs
  induction reqs with
  | nil =>
    intro db db' h
    cases h
    exact ⟨id, rfl, rfl, rfl, rfl, rfl, rfl⟩
  | cons p reqs ih =>
    obtain ⟨rt, q⟩ := p
    intro db db' h
    simp only [multiReserve] at h
    split at h
    · cases h
    rename_i db1 t hres
    obtain ⟨hl1, e1, e2, e3, e4, e5, e6⟩ := reserve_ok_inv db rt ci co q db1 t hres
    obtain ⟨hl2, f1, f2, f3, f4, f5, f6⟩ := ih db1 db' h
    exact ⟨fun hl => hl2 (hl1 hl), f1.trans e1, f2.trans e2, f3.trans e3, f4.trans e4,
      f5.trans e5, f6.trans e6⟩

theorem multi_body_inv (today : Nat) (db : DB) (ci co : Nat) (reqs : List (Nat × Int))
    (cust : CustomerInfo) (paid : Int) (notes : Option String) (db' : DB) (bid : Nat)
    (h : create_multi_room_booking_body today db ci co reqs cust paid notes = .ok (db', bid))
    (hq : ∀ p ∈ reqs, 1 ≤ p.2) (hs : StateInv db) : StateInv db' := by
  simp only [create_multi_room_booking_body] at h
  split at h
  · cases h
  split at h
  · cases h
  split at h
  · cases h
  rename_i hnotempty
  have hne : reqs ≠ [] := by
    intro hnil
    exact hnotempty (by rw [hnil]; rfl)
  split at h
  · cases h
  rename_i total prices htp
  split at h
  · cases h
  rename_i db1 hres
  cases h
  obtain ⟨hl1, e1, e2, e3, e4, e5, e6⟩ := multiReserve_ok_inv ci co reqs db db1 hres
  obtain ⟨hci, hcr, hcb, hcbi, hcnb⟩ := get_or_create_customer_shape db1 cust
  constructor
  · intro rt' d' rec hr
    have hr2 : ((get_or_create_customer db1 cust).1).inventory rt' d' = some rec := hr
    rw [hci] at hr2
    exact hl1 hs.1 rt' d' rec hr2
  · intro bid2 b2 hb2
    have hb2' : (if bid2 = (get_or_create_customer db1 cust).1.nextBookingId then
        some { customer_id := (get_or_create_customer db1 cust).2
               room_type_id := (reqs.headD (0, 0)).1
               check_in := ci, check_out := co
               num_rooms := (reqs.map (·.2)).sum, total_amount := total
               amount_paid := paid, status := .confirmed, notes := notes : Booking }
        else ((get_or_create_customer db1 cust).1).bookings bid2) = some b2 := hb2
    by_cases hb : bid2 = (get_or_create_customer db1 cust).1.nextBookingId
    · rw [if_pos hb] at hb2'
      cases hb2'
      exact one_le_req_sum reqs hq hne
    · rw [if_neg hb] at hb2'
      rw [hcb, e2] at hb2'
      exact hs.2 bid2 b2 hb2'

theorem step_inv (today : Nat) (db : DB) (op : Op) (hv : OpValid op) (hs : StateInv db) :
    StateInv (applyOp today db op) := by
  cases op with
  | reserve rt s e n =>
    simp only [applyOp]
    cases h : reserve_inventory db rt s e n with
    | error e' => simp only [runTxn]; exact hs
    | ok p =>
      obtain ⟨db', t⟩ := p
      simp only [runTxn]
      obtain ⟨hl, _, e2, _⟩ := reserve_ok_inv db rt s e n db' t h
      exact ⟨hl hs.1, BookingsPos_of_eq e2 hs.2⟩
  | restore rt s e n =>
    simp only [applyOp]
    rw [restore_eq]
    have hn : (0 : Int) ≤ n := le_trans zero_le_one hv
    exact ⟨adjustAll_lower db rt _ n hn hs.1,
      BookingsPos_of_eq (adjustAll_bookings db rt _ n) hs.2⟩
  | create bd =>
    simp only [applyOp, create_booking]
    cases h : create_booking_body today db bd with
    | error e' => simp only [runTxn]; exact hs
    | ok p =>
      obtain ⟨db', bid⟩ := p
      simp only [runTxn]
      exact create_body_inv today db bd db' bid h hv hs
  | cancel bid r =>
    simp only [applyOp, cancel_booking]
    cases h : cancel_booking_body db bid r with
    | error e' => simp only [runTxn]; exact hs
    | ok p =>
      obtain ⟨db', bid2⟩ := p
      simp only [runTxn]
      exact cancel_body_inv db bid r db' bid2 h hs
  | multi ci co reqs cust paid notes =>
    simp only [applyOp, create_multi_room_booking]
    cases h : create_multi_room_booking_body today db ci co reqs cust paid notes with
    | error e' => simp only [runTxn]; exact hs
    | ok p =>
      obtain ⟨db', bid⟩ := p
      simp only [runTxn]
      exact multi_body_inv today db ci co reqs cust paid notes db' bid h hv hs

theorem reachable_state_inv (today : Nat) (init db : DB) (hs : StateInv init)
    (h : ReachableVia (fun _ => True) today init db) : StateInv db := by
  induction h with
  | refl => exact hs
  | step op hprev hP hv ih => exact step_inv today _ op hv ih

theorem step_full_reserve (today : Nat) (db : DB) (rt s e : Nat) (n : Int) (hn : 0 ≤ n)
    (hf : InvFull db) : InvFull (applyOp today db (.reserve rt s e n)) := by
  simp only [applyOp]
  cases h : reserve_inventory db rt s e n with
  | error e' => simp only [runTxn]; exact hf
  | ok p =>
    obtain ⟨db', t⟩ := p
    simp only [runTxn]
    unfold reserve_inventory at h
    exact reserveLoop_ok_full rt n hn _ db 0 db' t h hf

theorem reachable_reserve_full (today : Nat) (init db : DB) (hf : InvFull init)
    (h : ReachableVia Op.isReserve today init db) : InvFull db := by
  induction h with
  | refl => exact hf
  | step op hprev hP hv ih =>
    cases op with
    | reserve rt s e n => exact step_full_reserve today _ rt s e n (le_trans zero_le_one hv) ih
    | restore rt s e n => exact False.elim hP
    | create bd => exact False.elim hP
    | cancel bid r => exact False.elim hP
    | multi ci co reqs cust paid notes => exact False.elim hP

theorem dbA_state_inv : StateInv dbA := by
  constructor
  · intro rt d rec hr
    simp only [dbA, mkDB] at hr
    split at hr
    · cases hr; decide
    · cases hr
  · intro bid b hb
    simp only [dbA, mkDB] at hb
    cases hb

theorem dbA_inv_full : InvFull dbA := by
  intro rt d rec rtRec hr hrt
  simp only [dbA, mkDB] at hr hrt
  split at hr
  · cases hr
    rename_i hm
    obtain ⟨rfl, rfl⟩ := hm
    rw [if_pos rfl] at hrt
    cases hrt
    decide
  · cases hr

/-! ### Claim theorems -/

/-- C1 counterexample: the invariant `0 ≤ available_rooms ≤ total_rooms` does
NOT hold in every state reachable under the five core operations.  From the
legal initial store `dbA` (one room type with 1 room, fully available, no
bookings — `StateInv` and `InvFull` both hold), a single schema-valid
`restore_inventory` call is a reachable step and pushes `available_rooms`
to 2 > total_rooms = 1. -/
theorem c1_counterexample :
    StateInv dbA ∧ InvFull dbA ∧
      ReachableVia (fun _ => True) 0 dbA (applyOp 0 dbA (.restore 1 0 1 1)) ∧
      ¬ InvFull (applyOp 0 dbA (.restore 1 0 1 1)) := by
  refine ⟨dbA_state_inv, dbA_inv_full, ?_, ?_⟩
  · exact ReachableVia.step (.restore 1 0 1 1) ReachableVia.refl trivial (by unfold OpValid; norm_num)
  · intro hf
    have hread : (applyOp 0 dbA (.restore 1 0 1 1)).inventory 1 0 =
        some ⟨2, 10⟩ := by decide
    have hrt : (applyOp 0 dbA (.restore 1 0 1 1)).roomTypes 1 = some ⟨1, 10⟩ := by decide
    have := (hf 1 0 ⟨2, 10⟩ ⟨1, 10⟩ hread hrt).2
    norm_num at this

/-- C1 (amended): under the five core operations with schema-valid (≥ 1)
quantities, every reachable inventory row keeps `0 ≤ available_rooms`
(given an initial store satisfying the state invariant); and the full
invariant `0 ≤ available_rooms ≤ total_rooms` is preserved by every sequence
consisting solely of reservation attempts.  (The upper bound is not preserved
by the full operation set — see the counterexample.) -/
theorem c1_invariant_amended :
    (∀ today init db, StateInv init →
      ReachableVia (fun _ => True) today init db → InvLower db) ∧
    (∀ today init db, InvFull init →
      ReachableVia Op.isReserve today init db → InvFull db) :=
  ⟨fun today init db hs h => (reachable_state_inv today init db hs h).1,
    fun today init db hf h => reachable_reserve_full today init db hf h⟩

/-- C1 witness. -/
theorem c1_invariant_amended_witness :
    InvLower (applyOp 0 dbA (.reserve 1 0 1 1)) ∧
      InvFull (applyOp 0 dbA (.reserve 1 0 1 1)) :=
  ⟨c1_invariant_amended.1 0 dbA _ dbA_state_inv
      (ReachableVia.step (.reserve 1 0 1 1) ReachableVia.refl trivial (by unfold OpValid; norm_num)),
    c1_invariant_amended.2 0 dbA _ dbA_inv_full
      (ReachableVia.step (.reserve 1 0 1 1) ReachableVia.refl trivial (by unfold OpValid; norm_num))⟩

/-- C2: `reserve_inventory` iterates over `get_date_list s e`, which is
strictly ascending (last conjunct).  When every date in `[s, e)` has a row
with at least `num` rooms, it succeeds, decrements each of those rows by
exactly `num` (`adjustAll` with delta `-num`) and returns the sum over the
dates of `price × num` (`priceSum`).  If, scanning in ascending order, the
first offending date has no row, it raises InventoryNotFound for that date;
if the first offending date has a row with fewer than `num` rooms, it raises
InventoryUnavailable carrying that date, the available count and the
requested count. -/
theorem c2_reserve_inventory_spec (db : DB) (rt s e : Nat) (num : Int) :
    ((∀ d ∈ get_date_list s e, dateSufficient db rt num d = true) →
      reserve_inventory db rt s e num =
        .ok (adjustAll db rt (get_date_list s e) (-num),
          priceSum db rt (get_date_list s e) num)) ∧
    (∀ l1 l2 dm, get_date_list s e = l1 ++ dm :: l2 →
      (∀ d ∈ l1, dateSufficient db rt num d = true) →
      db.inventory rt dm = none →
      reserve_inventory db rt s e num = .error (.pms (.inventoryNotFound [dm]))) ∧
    (∀ l1 l2 dm r, get_date_list s e = l1 ++ dm :: l2 →
      (∀ d ∈ l1, dateSufficient db rt num d = true) →
      db.inventory rt dm = some r → r.available_rooms < num →
      reserve_inventory db rt s e num =
        .error (.pms (.inventoryUnavailable (some dm) r.available_rooms num))) ∧
    (get_date_list s e).Pairwise (· < ·) :=
  ⟨fun h => reserve_ok_eq db rt s e num h,
    fun l1 l2 dm hsplit hsuf hm => reserve_missing_eq db rt s e num l1 l2 dm hsplit hsuf hm,
    fun l1 l2 dm r hsplit hsuf hm hlt =>
      reserve_insufficient_eq db rt s e num l1 l2 dm r hsplit hsuf hm hlt,
    pairwise_get_date_list s e⟩

/-- C2 witness: the three behaviours at the concrete store `dbB`. -/
theorem c2_reserve_inventory_spec_witness :
    reserve_inventory dbB 1 0 2 1 =
        .ok (adjustAll dbB 1 (get_date_list 0 2) (-1), priceSum dbB 1 (get_date_list 0 2) 1) ∧
      reserve_inventory dbB 1 0 4 1 = .error (.pms (.inventoryNotFound [2])) ∧
      reserve_inventory dbB 1 0 2 3 =
        .error (.pms (.inventoryUnavailable (some 1) 2 3)) :=
  ⟨(c2_reserve_inventory_spec dbB 1 0 2 1).1 (by decide),
    (c2_reserve_inventory_spec dbB 1 0 4 1).2.1 [0, 1] [3] 2 (by decide) (by decide) (by decide),
    (c2_reserve_inventory_spec dbB 1 0 2 3).2.2.1 [0] [] 1 ⟨2, 20⟩ (by decide) (by decide)
      (by decide) (by decide)⟩

/-- C4: if `reserve_inventory` succeeds, `restore_inventory` with the same
arguments maps the reserved store back to the original store, so every
affected row's `available_rooms` is exactly what it was before the reserve. -/
theorem c4_reserve_restore_round_trip (db : DB) (rt s e : Nat) (num : Int) (db' : DB) (t : Int)
    (h : reserve_inventory db rt s e num = .ok (db', t)) :
    restore_inventory db' rt s e num = db := by
  have hsuf := reserveLoop_ok_sufficient rt num (get_date_list s e) db 0 db' t h
  have heq := reserve_ok_eq db rt s e num hsuf
  rw [h] at heq
  injection heq with h1
  have hdb : db' = adjustAll db rt (get_date_list s e) (-num) := congrArg Prod.fst h1
  rw [hdb, restore_eq, adjustAll_adjustAll, show -num + num = 0 from by ring, adjustAll_zero]

/-- C4 witness: round trip at the concrete store `dbB`. -/
theorem c4_reserve_restore_round_trip_witness :
    restore_inventory (adjustAll dbB 1 (get_date_list 0 2) (-1)) 1 0 2 1 = dbB :=
  c4_reserve_restore_round_trip dbB 1 0 2 1 _ _ (reserve_ok_eq dbB 1 0 2 1 (by decide))

/-- C5 (code evaluated at the failing input): `restore_inventory` over
`[0, 2)` on a store whose room type 1 has no row for date 0 does NOT fail —
it is a total function that silently skips the missing row (date 0 stays
absent, no InventoryRestoreError is raised) while still crediting the row
that exists on date 1. -/
theorem c5_restore_missing_row_skipped :
    dbR.inventory 1 0 = none ∧
      availAt (restore_inventory dbR 1 0 2 1) 1 0 = none ∧
      availAt (restore_inventory dbR 1 0 2 1) 1 1 = some 3 := by
  refine ⟨rfl, ?_, ?_⟩ <;> decide

/-- C6: whenever `create_multi_room_booking` returns an error — a missing
room type or unavailable inventory, in the pre-check phase or while reserving
inside the transaction — the committed store is exactly the original store:
no inventory row of any room type keeps a deduction. -/
theorem c6_multi_room_failure_rolls_back (today : Nat) (db : DB) (ci co : Nat)
    (reqs : List (Nat × Int)) (cust : CustomerInfo) (paid : Int) (notes : Option String)
    (e : Err)
    (h : (create_multi_room_booking today db ci co reqs cust paid notes).2 = .error e) :
    create_multi_room_booking today db ci co reqs cust paid notes = (db, .error e) :=
  runTxn_of_error db _ e h

/-- C6 witness: the spec scenario — room A (room type 1, quantity 2,
available) and room B (room type 2, quantity 1, unavailable).  The pre-check
fails with InventoryUnavailable and room A's inventory is untouched (the
committed store is `dbM` itself). -/
theorem c6_multi_room_failure_rolls_back_witness :
    create_multi_room_booking 0 dbM 0 1 [(1, 2), (2, 1)] custX 0 none =
      (dbM, .error (.pms (.inventoryUnavailable none 0 1))) :=
  c6_multi_room_failure_rolls_back 0 dbM 0 1 [(1, 2), (2, 1)] custX 0 none
    (.pms (.inventoryUnavailable none 0 1)) (by decide)

/-- C7: `cancel_booking` fails with BookingNotFound when the booking id is
absent and with BookingAlreadyCancelled when the stored booking is already
CANCELLED, and in both cases the committed store (inventory rows included) is
exactly the original store. -/
theorem c7_cancel_booking_failures (db : DB) (bid1 bid2 : Nat) (r1 r2 : Option String)
    (b : Booking) (h1 : db.bookings bid1 = none) (h2 : db.bookings bid2 = some b)
    (hc : b.status = .cancelled) :
    cancel_booking db bid1 r1 = (db, .error (.pms (.bookingNotFound bid1))) ∧
      cancel_booking db bid2 r2 = (db, .error (.pms (.bookingAlreadyCancelled bid2))) := by
  constructor
  · simp only [cancel_booking, cancel_booking_body, h1, runTxn]
  · simp only [cancel_booking, cancel_booking_body, h2, hc, if_pos, runTxn]

/-- C7 witness: at the concrete store `dbK`, booking 1 is absent and booking
2 is already cancelled. -/
theorem c7_cancel_booking_failures_witness :
    cancel_booking dbK 1 none = (dbK, .error (.pms (.bookingNotFound 1))) ∧
      cancel_booking dbK 2 none = (dbK, .error (.pms (.bookingAlreadyCancelled 2))) :=
  c7_cancel_booking_failures dbK 1 2 none none { bookingB with status := .cancelled }
    (by decide) (by decide) (by decide)

/-- C3: for a CONFIRMED, modifiable booking, if `modify_booking` returns an
error (such as InventoryUnavailable while reserving the new footprint) the
whole scope — including the restore of the old footprint done first — rolls
back: the committed store is exactly the original store, so the booking's
fields and every inventory row of its original reservation are unchanged
(still deducted, not restored). -/
theorem c3_modify_failure_preserves_reservation (today : Nat) (db : DB) (bid : Nat)
    (nci nco : Option Nat) (nrt : Option Nat) (nnum : Option Int) (b : Booking) (e : Err)
    (_hb : db.bookings bid = some b) (_hst : b.status = .confirmed)
    (_hfut : ¬ b.check_in < today)
    (h : (modify_booking today db bid nci nco nrt nnum).2 = .error e) :
    modify_booking today db bid nci nco nrt nnum = (db, .error e) :=
  runTxn_of_error db _ e h

/-- C3 witness: the spec scenario — booking 10 holds room type 1 for `[1, 3)`
with 2 rooms; modifying to room type 2, `[2, 4)`, 3 rooms fails because room
type 2 has only 2 rooms on date 3.  The call fails with InventoryUnavailable
for date 3 and the committed store is `dbMod` itself (room type 1's rows stay
deducted). -/
theorem c3_modify_failure_preserves_reservation_witness :
    modify_booking 0 dbMod 10 (some 2) (some 4) (some 2) (some 3) =
      (dbMod, .error (.pms (.inventoryUnavailable (some 3) 2 3))) :=
  c3_modify_failure_preserves_reservation 0 dbMod 10 (some 2) (some 4) (some 2) (some 3)
    bookingB (.pms (.inventoryUnavailable (some 3) 2 3)) (by decide) (by decide) (by decide)
    (by decide)

/-- C10: calling `create_multi_room_booking` with a valid future date range
and an empty request list raises the plain Python ValueError (its message is
the source's), an error kind that is not any typed PMS error, and the
committed store is the original store — nothing was mutated. -/
theorem c10_empty_multi_request_value_error (today : Nat) (db : DB) (ci co : Nat)
    (cust : CustomerInfo) (paid : Int) (notes : Option String)
    (h1 : ci < co) (h2 : today ≤ ci) :
    create_multi_room_booking today db ci co [] cust paid notes =
        (db, .error (.valueError "At least one room type must be requested")) ∧
      ∀ pe : PMSError, Err.valueError "At least one room type must be requested" ≠ .pms pe := by
  constructor
  · simp only [create_multi_room_booking, create_multi_room_booking_body,
      if_neg (not_le.mpr h1), if_neg (not_lt.mpr h2)]
    rfl
  · intro pe hcontra
    cases hcontra

/-- C10 witness. -/
theorem c10_empty_multi_request_value_error_witness :
    create_multi_room_booking 0 dbM 0 1 [] custX 0 none =
        (dbM, .error (.valueError "At least one room type must be requested")) ∧
      ∀ pe : PMSError, Err.valueError "At least one room type must be requested" ≠ .pms pe :=
  c10_empty_multi_request_value_error 0 dbM 0 1 custX 0 none (by decide) (by decide)

/-- C9: `restore_inventory` is not idempotent: on a span whose rows all
exist, invoking it twice with quantity `num` leaves every affected row with
exactly `2 * num` more rooms than before — double the effect of a single
invocation. -/
theorem c9_restore_not_idempotent (db : DB) (rt s e : Nat) (num : Int)
    (hpres : ∀ d ∈ get_date_list s e, dateHasRecord db rt d = true) :
    ∀ d ∈ get_date_list s e, ∃ a, availAt db rt d = some a ∧
      availAt (restore_inventory (restore_inventory db rt s e num) rt s e num) rt d =
        some (a + 2 * num) := by
  intro d hd
  have hrec := hpres d hd
  unfold dateHasRecord at hrec
  cases hinv : db.inventory rt d with
  | none => rw [hinv] at hrec; cases hrec
  | some r =>
    refine ⟨r.available_rooms, by rw [availAt, hinv]; rfl, ?_⟩
    rw [restore_eq, restore_eq, adjustAll_adjustAll]
    unfold availAt
    rw [adjustAll_inventory, if_pos ⟨rfl, hd⟩, hinv]
    show some (r.available_rooms + (num + num)) = some (r.available_rooms + 2 * num)
    congr 1
    ring

/-- C9 witness: double restore over `[0, 2)` at the concrete store `dbB`,
observed on date 0 (3 rooms before, 3 + 2·1 after). -/
theorem c9_restore_not_idempotent_witness :
    ∃ a, availAt dbB 1 0 = some a ∧
      availAt (restore_inventory (restore_inventory dbB 1 0 2 1) 1 0 2 1) 1 0 =
        some (a + 2 * 1) :=
  c9_restore_not_idempotent dbB 1 0 2 1 (by decide) 0 (by decide)

/-- C8: `check_availability` fails with InvalidDateRange when
`end_date ≤ start_date` or when `start_date` is before today; with the date
range valid, it fails with InventoryNotFound when some date of
`[start_date, end_date)` has no inventory row; otherwise it returns
`(is_available, min_available, total_price)` where `min_available` is the
minimum `available_rooms` across the span (`minAvailSpec`), `total_price` is
the sum of per-date price times the quantity (`priceSum`) and `is_available`
holds iff `min_available ≥ quantity`.  It returns no modified store: its type
is read-only, so no inventory row is mutated. -/
theorem c8_check_availability_spec (db : DB) (today rt s e : Nat) (num : Int) :
    (e ≤ s → check_availability db today rt s e num = .error (.pms .invalidDateRange)) ∧
      (¬ e ≤ s → s < today →
        check_availability db today rt s e num = .error (.pms .invalidDateRange)) ∧
      (¬ e ≤ s → ¬ s < today →
        (get_date_list s e).filter (fun d => (db.inventory rt d).isNone) ≠ [] →
        check_availability db today rt s e num =
          .error (.pms (.inventoryNotFound
            ((get_date_list s e).filter (fun d => (db.inventory rt d).isNone))))) ∧
      (∀ m, ¬ e ≤ s → ¬ s < today →
        (get_date_list s e).filter (fun d => (db.inventory rt d).isNone) = [] →
        minAvailSpec db rt (get_date_list s e) = some m →
        check_availability db today rt s e num =
          .ok (decide (num ≤ m), m, priceSum db rt (get_date_list s e) num)) := by
  refine ⟨?_, ?_, ?_, ?_⟩
  · intro h
    simp only [check_availability, if_pos h]
  · intro h1 h2
    simp only [check_availability, if_neg h1, if_pos h2]
  · intro h1 h2 hne
    simp only [check_availability, if_neg h1, if_neg h2]
    rw [if_neg (fun hc => hne (by simpa using hc))]
  · intro m h1 h2 hmiss hmin
    have hall : ∀ d ∈ get_date_list s e, (db.inventory rt d).isNone = false := by
      intro d hd
      cases hiso : (db.inventory rt d).isNone with
      | false => rfl
      | true =>
        have hdmem : d ∈ (get_date_list s e).filter (fun d => (db.inventory rt d).isNone) :=
          List.mem_filter.mpr ⟨hd, hiso⟩
        rw [hmiss] at hdmem
        cases hdmem
    have hmap := filterMap_all_present db rt (·.available_rooms) 0 (get_date_list s e) hall
    have hprice : (((get_date_list s e).filterMap (fun d => db.inventory rt d)).map
          (·.price)).sum * num = priceSum db rt (get_date_list s e) num := by
      rw [filterMap_all_present db rt (·.price) 0 (get_date_list s e) hall,
        list_sum_mul_right, List.map_map]
      rfl
    simp only [check_availability, if_neg h1, if_neg h2]
    rw [if_pos (by rw [hmiss]; rfl)]
    rw [hmap]
    have hmin2 : ((get_date_list s e).map
        (fun d => (db.inventory rt d).elim 0 (·.available_rooms))).min? = some m := hmin
    rw [hmin2, hprice]

/-- C8 witness: all four behaviours at the concrete store `dbB`. -/
theorem c8_check_availability_spec_witness :
    check_availability dbB 0 1 2 2 1 = .error (.pms .invalidDateRange) ∧
      check_availability dbB 5 1 0 2 1 = .error (.pms .invalidDateRange) ∧
      check_availability dbB 0 1 0 4 1 =
        .error (.pms (.inventoryNotFound
          ((get_date_list 0 4).filter (fun d => (dbB.inventory 1 d).isNone)))) ∧
      check_availability dbB 0 1 0 2 3 =
        .ok (decide ((3:Int) ≤ 2), 2, priceSum dbB 1 (get_date_list 0 2) 3) :=
  ⟨(c8_check_availability_spec dbB 0 1 2 2 1).1 (by decide),
    (c8_check_availability_spec dbB 5 1 0 2 1).2.1 (by decide) (by decide),
    (c8_check_availability_spec dbB 0 1 0 4 1).2.2.1 (by decide) (by decide) (by decide),
    (c8_check_availability_spec dbB 0 1 0 2 3).2.2.2 2 (by decide) (by decide) (by decide)
      (by decide)⟩

end PMS
